import Mathlib

/-!
Shallow embedding of the PhabPrint core (src/src/services/phabricator.js and
src/src/services/printer.js) and proofs about its specified behaviour.

Machine strings are `String`, JS arrays are `List`, a JS `Set` of strings is a
duplicate-free `List String` in insertion order, optional / possibly-absent JS
values are `Option`, and the persisted cache file `.printed-tasks.json` is an
`Option (List String)` (`none` = file absent).  Console output and device
interaction are recorded as an explicit event trace.
-/

namespace PhabPrint

/-- Boolean test that `p` is a prefix of `s` (on character lists). -/
def isPrefixL : List Char → List Char → Bool
  | [], _ => true
  | _ :: _, [] => false
  | p :: ps, c :: cs => p == c && isPrefixL ps cs

/-- Boolean test that `pat` occurs as a contiguous substring of `s`
(on character lists). -/
def containsL (pat : List Char) : List Char → Bool
  | [] => isPrefixL pat []
  | c :: cs => isPrefixL pat (c :: cs) || containsL pat cs

/-- The characters of `s`, lower-cased (models JS `toLowerCase()` on the
ASCII strings this program handles). -/
def lowerChars (s : String) : List Char :=
  s.data.map Char.toLower

/-- Case-insensitive substring test: does `pat` occur in `s`, ignoring case?
Models both JS `s.toLowerCase().includes(pat)` and a case-insensitive regex
match of the literal pattern `pat` against `s`. -/
def includesCI (s pat : String) : Bool :=
  containsL (lowerChars pat) (lowerChars s)

/-- Replace the first occurrence of `pat` in `s` by the empty string
(models JS `s.replace(pat, '')`, which replaces only the first match),
on character lists. -/
def replaceFirstL (pat : List Char) : List Char → List Char
  | [] => []
  | c :: cs =>
    if isPrefixL pat (c :: cs) then (c :: cs).drop pat.length
    else c :: replaceFirstL pat cs

/-- Replace the first occurrence of `pat` in `s` by the empty string. -/
def replaceFirst (s pat : String) : String :=
  String.mk (replaceFirstL pat.data s.data)

/-! ## Phabricator data model

`maniphest.search` task records, as consumed by `filterSprintTasks` and
`formatTaskForPrint` (src/src/services/phabricator.js).  Fields the source
reads through optional chaining (`?.`) or that JS may leave `undefined` are
`Option`s. -/

/-- A workboard column (`col` in the source): only its `name` is read. -/
structure Column where
  name : String
deriving DecidableEq, Repr

/-- One board entry of `task.attachments.columns.boards` (the source iterates
`Object.values(columnsData)`, so only the ordered list of values matters). -/
structure Board where
  columns : List Column
deriving DecidableEq, Repr

/-- Model of `task.fields.priority` / `task.fields.status`: objects whose `name` the
source reads. -/
structure NamedField where
  name : String
deriving DecidableEq, Repr

/-- Model of `task.fields`: `name` and `points` may be absent (`undefined`/`null`),
`priority` and `status` are read through `?.name`. -/
structure TaskFields where
  name : Option String
  priority : Option NamedField
  points : Option String
  status : Option NamedField
deriving DecidableEq, Repr

/-- Model of `task.attachments`: `columns` is `task.attachments?.columns?.boards`
collapsed into one `Option` (`none` whenever any level of the optional chain
is absent); `projects` is `task.attachments?.projects?.projectPHIDs`. -/
structure Attachments where
  columns : Option (List Board)
  projects : Option (List String)
deriving DecidableEq, Repr

/-- A raw Maniphest task record. -/
structure Task where
  id : Nat
  fields : TaskFields
  attachments : Attachments
deriving DecidableEq, Repr

/-- The test `sprintPattern.test(col.name)` where
`sprintPattern = new RegExp(sprintKeywords.join('|'), 'i')`
(src/src/services/phabricator.js, `filterSprintTasks`), for keyword strings
that contain no regex metacharacters (the configured defaults
`sprint`, `to do`, `in progress`, `doing` are such literals): an alternation
of literals matches iff some alternative occurs in the string, ignoring case.
`[].join('|')` is `''` and `new RegExp('', 'i')` matches every string, hence
the empty-list branch. -/
def sprintPatternTest (keywords : List String) (s : String) : Bool :=
  if keywords.isEmpty then true
  else keywords.any fun k => includesCI s k

/-- Model of `filterSprintTasks(tasks)` (src/src/services/phabricator.js): keep the
tasks some of whose board columns match the sprint pattern; tasks with no
`attachments?.columns?.boards` data are dropped (`if (!columnsData) return
false`).  The keyword list `config.filters.sprintColumns` is a parameter. -/
def filterSprintTasks (keywords : List String) (tasks : List Task) : List Task :=
  tasks.filter fun task =>
    match task.attachments.columns with
    | none => false
    | some boards =>
      boards.any fun board => board.columns.any fun col =>
        sprintPatternTest keywords col.name

/-- The spec's own selection predicate, stated from its words (refinement
target for `filterSprintTasks`): "a task qualifies if any column name, across
any associated board, contains any configured keyword as a case-insensitive
substring", and "tasks with no column/board attachment data present are
excluded". -/
def specSprintQualifies (keywords : List String) (task : Task) : Bool :=
  match task.attachments.columns with
  | none => false
  | some boards =>
    boards.any fun board => board.columns.any fun col =>
      keywords.any fun k => includesCI col.name k

/-- The formatted-task record produced by `formatTaskForPrint` and consumed by
the printer service. -/
structure FormattedTask where
  id : String
  numericId : Nat
  title : String
  priority : String
  points : String
  status : String
  projectPhids : List String
  columns : List String
  url : String
deriving DecidableEq, Repr

/-- JS `x || d` for a string-or-undefined `x`: the default is used when `x`
is absent or the empty string (both falsy in JS). -/
def jsOrDefault (v : Option String) (d : String) : String :=
  match v with
  | none => d
  | some s => if s = "" then d else s

/-- Model of `formatTaskForPrint(task)` (src/src/services/phabricator.js).
`this.baseUrl` is the `baseUrl` parameter.  `points ?? 'N/A'` is nullish
coalescing, so only an absent value falls back; the nested
`Object.values(columnsData).forEach(board => board.columns.forEach(col =>
columns.push(col.name)))` is the fold appending each board's column names. -/
def formatTaskForPrint (baseUrl : String) (task : Task) : FormattedTask :=
  let taskId := "T" ++ toString task.id
  { id := taskId
    numericId := task.id
    title := jsOrDefault task.fields.name "Untitled"
    priority := jsOrDefault (task.fields.priority.map NamedField.name) "Unknown"
    points := task.fields.points.getD "N/A"
    status := jsOrDefault (task.fields.status.map NamedField.name) "Unknown"
    projectPhids := task.attachments.projects.getD []
    columns :=
      match task.attachments.columns with
      | none => []
      | some boards =>
        boards.foldl (fun acc board => acc ++ board.columns.map Column.name) []
    url := replaceFirst baseUrl "/api" ++ "/" ++ taskId }

/-! ## Printer service (src/src/services/printer.js)

`PrinterService` state: the `dryRun` flag, the in-memory `printedTasks` set
(a JS `Set`, modelled as a duplicate-free list in insertion order) and the
persisted cache file (`none` = file absent).  The file system is modelled as
reliable: `fs.writeFileSync` / `readFileSync` succeed (their `catch` branches
only log a warning).  The external escpos device is an oracle
`dev : FormattedTask → DeviceOutcome`, and console/device side effects are
recorded in an event trace. -/

/-- State of a `PrinterService` instance plus the persisted cache file. -/
structure PrinterState where
  dryRun : Bool
  printedTasks : List String
  storage : Option (List String)
deriving DecidableEq, Repr

/-- JS `Set.add`: append the element unless already present. -/
def setAdd (l : List String) (id : String) : List String :=
  if l.contains id then l else l ++ [id]

/-- JS `Set.delete`: remove the element. -/
def setDelete (l : List String) (id : String) : List String :=
  l.filter fun x => x ≠ id

/-- Model of `loadPrintedTasks()`: starting from the empty set, add every id found in
the cache file, if it exists (`data.forEach(id => this.printedTasks.add(id))`).
Returns the resulting in-memory set. -/
def loadPrintedTasks (storage : Option (List String)) : List String :=
  match storage with
  | none => []
  | some data => data.foldl setAdd []

/-- Model of `savePrintedTasks()`: rewrite the cache file with the full in-memory set
(`JSON.stringify([...this.printedTasks])`). -/
def savePrintedTasks (st : PrinterState) : PrinterState :=
  { st with storage := some st.printedTasks }

/-- Model of `isAlreadyPrinted(taskId)`. -/
def isAlreadyPrinted (st : PrinterState) (taskId : String) : Bool :=
  st.printedTasks.contains taskId

/-- Model of `markPrinted(taskId)`: add to the in-memory set, then persist. -/
def markPrinted (st : PrinterState) (taskId : String) : PrinterState :=
  savePrintedTasks { st with printedTasks := setAdd st.printedTasks taskId }

/-- Model of `clearCache()`: empty the in-memory set, then persist the empty set. -/
def clearCache (st : PrinterState) : PrinterState :=
  savePrintedTasks { st with printedTasks := [] }

/-- Outcome of one interaction with the escpos device for one task:
`device.open` succeeds and the ticket is written, `device.open` calls back
with an error, or the printing chain throws. -/
inductive DeviceOutcome
  | success
  | openError
  | writeError
deriving DecidableEq, Repr

/-- Result of `printTask` as seen by its caller: the promise resolves `false`
(already printed), resolves `true` (printed, or simulated in dry-run), or
rejects (caught by `printTasks`). -/
inductive PrintResult
  | skipped
  | printed
  | failed
deriving DecidableEq, Repr

/-- Observable events of a printer run: the `[SKIP]` log, the dry-run
simulated rendering, a successful physical print, a failed device
interaction with its `[ERROR]` log, and a `sleep(delayMs)` wait. -/
inductive Ev
  | skip (id : String)
  | dryPrint (id : String)
  | realPrint (id : String)
  | printFail (id : String)
  | sleep (ms : Nat)
deriving DecidableEq, Repr

/-- Model of `printTask(task)`: skip when the id is cached; in dry-run simulate and
resolve `true` without marking; otherwise drive the device, and on success
`markPrinted` before resolving.  Both a failed `device.open` and a throwing
print chain reject the promise without marking. -/
def printTask (dev : FormattedTask → DeviceOutcome) (st : PrinterState)
    (task : FormattedTask) : PrinterState × PrintResult × List Ev :=
  if isAlreadyPrinted st task.id then (st, PrintResult.skipped, [Ev.skip task.id])
  else if st.dryRun then (st, PrintResult.printed, [Ev.dryPrint task.id])
  else
    match dev task with
    | DeviceOutcome.success =>
      (markPrinted st task.id, PrintResult.printed, [Ev.realPrint task.id])
    | DeviceOutcome.openError => (st, PrintResult.failed, [Ev.printFail task.id])
    | DeviceOutcome.writeError => (st, PrintResult.failed, [Ev.printFail task.id])

/-- The fixed synthetic task of `printTest()`.  The JS object literal has no
`numericId`/`projectPhids` properties; nothing in the printer reads them, and
they are given inert values here. -/
def testTask : FormattedTask :=
  { id := "T00000"
    numericId := 0
    title := "Test Ticket - PhabPrint"
    priority := "Normal"
    points := "3"
    status := "Open"
    projectPhids := []
    columns := ["Test Column"]
    url := "https://phabricator.example.com/T00000" }

/-- Model of `printTest()`: delete the test id from the in-memory set ("Temporarily
allow printing test task"), then print the synthetic ticket. -/
def printTest (dev : FormattedTask → DeviceOutcome) (st : PrinterState) :
    PrinterState × PrintResult × List Ev :=
  printTask dev { st with printedTasks := setDelete st.printedTasks testTask.id }
    testTask

/-- First index of `t` in `l` under structural equality (JS
`Array.prototype.indexOf` with `===`; in `printTasks` it is only applied to
elements of the traversed array, where both agree). -/
def idxOf : List FormattedTask → FormattedTask → Nat
  | [], _ => 0
  | x :: xs, t => if x = t then 0 else idxOf xs t + 1

/-- The `for (const task of tasks)` loop body of `printTasks`, processing the
remaining suffix `rem` of the full array `tasks`: each task is printed inside
`try`/`catch` (a rejection is logged and the loop continues); a resolved
`true` increments `printedCount` and, when `tasks.indexOf(task) <
tasks.length - 1`, sleeps `delayMs` before the next task.  Returns the final
state, `printedCount`, and the event trace. -/
def printTasksAux (dev : FormattedTask → DeviceOutcome) (delayMs : Nat)
    (tasks : List FormattedTask) :
    List FormattedTask → PrinterState → PrinterState × Nat × List Ev
  | [], st => (st, 0, [])
  | t :: rest, st =>
    let res := printTask dev st t
    let next := printTasksAux dev delayMs tasks rest res.1
    match res.2.1 with
    | PrintResult.printed =>
      if idxOf tasks t < tasks.length - 1 then
        (next.1, next.2.1 + 1, res.2.2 ++ Ev.sleep delayMs :: next.2.2)
      else
        (next.1, next.2.1 + 1, res.2.2 ++ next.2.2)
    | _ => (next.1, next.2.1, res.2.2 ++ next.2.2)

/-- Model of `printTasks(tasks, delayMs)`: run the loop over the whole array. -/
def printTasks (dev : FormattedTask → DeviceOutcome) (st : PrinterState)
    (tasks : List FormattedTask) (delayMs : Nat) : PrinterState × Nat × List Ev :=
  printTasksAux dev delayMs tasks tasks st

/-- Events that are a print rendering (dry-run simulation or physical). -/
def isPrintEv : Ev → Bool
  | Ev.dryPrint _ => true
  | Ev.realPrint _ => true
  | _ => false

/-- Events that are a successful physical print. -/
def isRealPrintEv : Ev → Bool
  | Ev.realPrint _ => true
  | _ => false

/-- Events that are a `sleep`. -/
def isSleepEv : Ev → Bool
  | Ev.sleep _ => true
  | _ => false

/-- Does this event represent any print-path interaction (simulated
rendering, physical print, or failed device attempt) for the id `id`? -/
def evTouchesPrint (id : String) : Ev → Bool
  | Ev.dryPrint j => j == id
  | Ev.realPrint j => j == id
  | Ev.printFail j => j == id
  | _ => false

/-- Helper for `sleepsFollowPrints`: walking the trace with the previous
event at hand, every `sleep` found must be preceded by a print rendering. -/
def sleepsAfterPrintsFrom : Ev → List Ev → Bool
  | _, [] => true
  | prev, e :: rest =>
    (if isSleepEv e then isPrintEv prev else true) && sleepsAfterPrintsFrom e rest

/-- Every `sleep` event in the trace immediately follows a print rendering
event (so waits happen only right after a task was printed or simulated). -/
def sleepsFollowPrints : List Ev → Bool
  | [] => true
  | e :: rest => !isSleepEv e && sleepsAfterPrintsFrom e rest

/-- The list of ids held by the persisted cache file (empty if absent). -/
def storageL (st : PrinterState) : List String :=
  st.storage.getD []

/-- Consistency of persisted storage with the in-memory set: every persisted
id is also in memory.  It holds in every reachable state: at startup the
constructor loads memory from storage, and every later write persists the
current memory. -/
def storageInv (st : PrinterState) : Prop :=
  ∀ y ∈ storageL st, y ∈ st.printedTasks

/-! ## Concrete sample data for instantiations -/

/-- A concrete raw task with no column attachment data. -/
def noColsTask : Task :=
  { id := 7
    fields := { name := none, priority := none, points := none, status := none }
    attachments := { columns := none, projects := none } }

/-- A concrete raw task whose single board has one column named "Backlog". -/
def backlogTask : Task :=
  { id := 1
    fields := { name := some "A task", priority := none, points := none, status := none }
    attachments := { columns := some [{ columns := [{ name := "Backlog" }] }]
                     projects := none } }

/-- A device oracle on which every print attempt succeeds. -/
def devAlwaysOK : FormattedTask → DeviceOutcome := fun _ => DeviceOutcome.success

/-- A device oracle on which every print attempt throws mid-write. -/
def devAlwaysFails : FormattedTask → DeviceOutcome := fun _ => DeviceOutcome.writeError

/-- A concrete formatted task with id "T1". -/
def sampleA : FormattedTask :=
  { id := "T1", numericId := 1, title := "First", priority := "High", points := "2"
    status := "Open", projectPhids := [], columns := ["Doing"], url := "https://x.org/T1" }

/-- A concrete formatted task with id "T2". -/
def sampleB : FormattedTask :=
  { id := "T2", numericId := 2, title := "Second", priority := "Low", points := "1"
    status := "Open", projectPhids := [], columns := ["Doing"], url := "https://x.org/T2" }

/-! ## Basic lemmas about the JS `Set` model -/

theorem mem_setAdd_iff (l : List String) (id x : String) :
    x ∈ setAdd l id ↔ x ∈ l ∨ x = id := by
  by_cases h : l.contains id = true
  · have hid : id ∈ l := List.elem_iff.mp h
    simp only [setAdd, h, if_true]
    constructor
    · exact Or.inl
    · rintro (hx | rfl)
      · exact hx
      · exact hid
  · simp only [setAdd, h, if_false]
    simp [List.mem_append]

theorem mem_setAdd_self (l : List String) (id : String) : id ∈ setAdd l id :=
  (mem_setAdd_iff l id id).mpr (Or.inr rfl)

theorem mem_setAdd_of_mem (l : List String) (id x : String) (h : x ∈ l) :
    x ∈ setAdd l id :=
  (mem_setAdd_iff l id x).mpr (Or.inl h)

theorem mem_foldl_setAdd_of_mem_acc :
    ∀ (l acc : List String) (x : String), x ∈ acc → x ∈ l.foldl setAdd acc := by
  intro l
  induction l with
  | nil => intro acc x h; exact h
  | cons a t ih =>
    intro acc x h
    rw [List.foldl_cons]
    exact ih _ x (mem_setAdd_of_mem _ _ _ h)

theorem mem_foldl_setAdd_of_mem :
    ∀ (l acc : List String) (x : String), x ∈ l → x ∈ l.foldl setAdd acc := by
  intro l
  induction l with
  | nil => intro acc x h; cases h
  | cons a t ih =>
    intro acc x h
    rw [List.foldl_cons]
    rcases List.mem_cons.mp h with rfl | h'
    · exact mem_foldl_setAdd_of_mem_acc t _ x (mem_setAdd_self acc x)
    · exact ih _ x h'

/-! ## C3: markPrinted durability -/

/-- C3: for every id, after `markPrinted(id)` returns, loading the dedup cache
from persisted storage (as at a process restart) yields a set containing the
id; `markPrinted` adds the id to the in-memory set and immediately persists
the full set. -/
theorem claim3_mark_durable (st : PrinterState) (id : String) :
    id ∈ loadPrintedTasks (markPrinted st id).storage ∧
    (markPrinted st id).printedTasks = setAdd st.printedTasks id ∧
    (markPrinted st id).storage = some (setAdd st.printedTasks id) := by
  refine ⟨?_, rfl, rfl⟩
  show id ∈ loadPrintedTasks (some (setAdd st.printedTasks id))
  simp only [loadPrintedTasks]
  exact mem_foldl_setAdd_of_mem _ [] id (mem_setAdd_self _ _)

/-! ## C8: fail-closed filtering -/

/-- C8: a task whose column/board attachment data is absent is never selected
by `filterSprintTasks`, for every keyword configuration. -/
theorem claim8_fail_closed (keywords : List String) (tasks : List Task) (t : Task)
    (h : t.attachments.columns = none) :
    t ∉ filterSprintTasks keywords tasks := by
  intro hmem
  have hp := (List.mem_filter.mp hmem).2
  rw [h] at hp
  simp at hp

/-- Witness for C8 at a concrete task with no column data. -/
theorem claim8_witness : noColsTask ∉ filterSprintTasks ["doing"] [noColsTask] :=
  claim8_fail_closed ["doing"] [noColsTask] noColsTask rfl

/-! ## C9: formatTaskForPrint field contract -/

theorem foldl_append_map_eq_flatten (f : Board → List String) :
    ∀ (boards : List Board) (acc : List String),
      boards.foldl (fun a b => a ++ f b) acc = acc ++ (boards.map f).flatten := by
  intro boards
  induction boards with
  | nil => intro acc; simp
  | cons b bs ih => intro acc; simp [ih]

/-- C9: `formatTaskForPrint` is total on raw task records; its `id` is `"T"`
followed by the numeric id, a missing title becomes `"Untitled"`, a missing
priority or status name becomes `"Unknown"`, a missing point estimate becomes
`"N/A"`, and `columns` is the concatenation of the column names of all
attached boards (empty when attachment data is absent). -/
theorem claim9_format_fields (baseUrl : String) (t : Task) :
    (formatTaskForPrint baseUrl t).id = "T" ++ toString t.id ∧
    (t.fields.name = none → (formatTaskForPrint baseUrl t).title = "Untitled") ∧
    (t.fields.priority = none → (formatTaskForPrint baseUrl t).priority = "Unknown") ∧
    (t.fields.status = none → (formatTaskForPrint baseUrl t).status = "Unknown") ∧
    (t.fields.points = none → (formatTaskForPrint baseUrl t).points = "N/A") ∧
    (formatTaskForPrint baseUrl t).columns
      = ((t.attachments.columns.getD []).map fun b => b.columns.map Column.name).flatten ∧
    (t.attachments.columns = none → (formatTaskForPrint baseUrl t).columns = []) := by
  refine ⟨rfl, ?_, ?_, ?_, ?_, ?_, ?_⟩
  · intro h; simp [formatTaskForPrint, h, jsOrDefault]
  · intro h; simp [formatTaskForPrint, h, jsOrDefault]
  · intro h; simp [formatTaskForPrint, h, jsOrDefault]
  · intro h; simp [formatTaskForPrint, h]
  · cases hc : t.attachments.columns with
    | none => simp [formatTaskForPrint, hc]
    | some boards =>
      simp only [formatTaskForPrint, hc, Option.getD_some]
      rw [foldl_append_map_eq_flatten (fun b => b.columns.map Column.name) boards []]
      simp
  · intro h; simp [formatTaskForPrint, h]

/-- Witness for C9 at a concrete task with every optional field absent. -/
theorem claim9_witness :
    (formatTaskForPrint "https://phab.example.com/api" noColsTask).title = "Untitled" ∧
    (formatTaskForPrint "https://phab.example.com/api" noColsTask).priority = "Unknown" ∧
    (formatTaskForPrint "https://phab.example.com/api" noColsTask).status = "Unknown" ∧
    (formatTaskForPrint "https://phab.example.com/api" noColsTask).points = "N/A" ∧
    (formatTaskForPrint "https://phab.example.com/api" noColsTask).columns = [] :=
  ⟨(claim9_format_fields "https://phab.example.com/api" noColsTask).2.1 rfl,
   (claim9_format_fields "https://phab.example.com/api" noColsTask).2.2.1 rfl,
   (claim9_format_fields "https://phab.example.com/api" noColsTask).2.2.2.1 rfl,
   (claim9_format_fields "https://phab.example.com/api" noColsTask).2.2.2.2.1 rfl,
   (claim9_format_fields "https://phab.example.com/api" noColsTask).2.2.2.2.2.2 rfl⟩

/-! ## C2: sprint filtering against the spec's predicate -/

/-- C2 counterexample: with the empty keyword list, the compiled pattern
`new RegExp('', 'i')` matches every string, so `filterSprintTasks` selects a
task whose only column is "Backlog" although no configured keyword occurs in
any of its column names — the claim's characterization fails for this keyword
list. -/
theorem claim2_cex :
    filterSprintTasks [] [backlogTask] = [backlogTask] ∧
    specSprintQualifies [] backlogTask = false ∧
    filterSprintTasks [] [backlogTask]
      ≠ List.filter (fun t => specSprintQualifies [] t) [backlogTask] := by
  refine ⟨by decide, by decide, by decide⟩

/-- C2 (amended): for every nonempty keyword list, `filterSprintTasks` returns
the order-preserving subsequence of exactly those tasks for which some column
name, across some associated board, contains some configured keyword as a
case-insensitive substring (being a pure function, it is deterministic in its
input). -/
theorem claim2_filter_matches_spec (keywords : List String) (tasks : List Task)
    (h : keywords ≠ []) :
    filterSprintTasks keywords tasks
      = List.filter (fun t => specSprintQualifies keywords t) tasks ∧
    (filterSprintTasks keywords tasks).Sublist tasks := by
  constructor
  · unfold filterSprintTasks
    apply List.filter_congr
    intro t _
    cases keywords with
    | nil => exact absurd rfl h
    | cons k ks =>
      cases hc : t.attachments.columns with
      | none => simp [specSprintQualifies, hc]
      | some boards => simp [specSprintQualifies, sprintPatternTest, hc]
  · exact List.filter_sublist _

/-! ## Lemmas about printTask and the printTasks loop -/

theorem contains_of_mem (l : List String) (x : String) (h : x ∈ l) :
    l.contains x = true :=
  List.elem_iff.mpr h

theorem not_mem_of_contains_eq_false (l : List String) (x : String)
    (h : l.contains x = false) : x ∉ l := by
  intro hx
  rw [contains_of_mem _ _ hx] at h
  cases h

theorem printTask_shape (dev : FormattedTask → DeviceOutcome) (st : PrinterState)
    (t : FormattedTask) :
    ∃ e : Ev, (printTask dev st t).2.2 = [e] ∧ isSleepEv e = false ∧
      (isPrintEv e = true ↔ (printTask dev st t).2.1 = PrintResult.printed) := by
  unfold printTask
  split
  · exact ⟨Ev.skip t.id, rfl, rfl, by simp [isPrintEv]⟩
  · split
    · exact ⟨Ev.dryPrint t.id, rfl, rfl, by simp [isPrintEv]⟩
    · split
      · exact ⟨Ev.realPrint t.id, rfl, rfl, by simp [isPrintEv]⟩
      · exact ⟨Ev.printFail t.id, rfl, rfl, by simp [isPrintEv]⟩
      · exact ⟨Ev.printFail t.id, rfl, rfl, by simp [isPrintEv]⟩

theorem printTask_mono (dev : FormattedTask → DeviceOutcome) (st : PrinterState)
    (t : FormattedTask) (x : String) (h : x ∈ st.printedTasks) :
    x ∈ (printTask dev st t).1.printedTasks := by
  unfold printTask
  split
  · exact h
  · split
    · exact h
    · split
      · exact mem_setAdd_of_mem _ _ _ h
      · exact h
      · exact h

theorem printTask_no_touch (dev : FormattedTask → DeviceOutcome) (st : PrinterState)
    (t : FormattedTask) (id : String) (h : id ∈ st.printedTasks) :
    ∀ e ∈ (printTask dev st t).2.2, evTouchesPrint id e = false := by
  intro e he
  by_cases hc : isAlreadyPrinted st t.id = true
  · simp only [printTask, hc, if_true] at he
    rcases List.mem_singleton.mp he with rfl
    rfl
  · have hne : t.id ≠ id := by
      intro hx
      exact hc (contains_of_mem _ _ (hx ▸ h))
    have hne' : (t.id == id) = false := beq_eq_false_iff_ne.mpr hne
    simp only [printTask, hc, if_false] at he
    by_cases hd : st.dryRun = true
    · rw [if_pos hd] at he
      rcases List.mem_singleton.mp he with rfl
      simp [evTouchesPrint, hne']
    · rw [if_neg hd] at he
      rcases hx : dev t with _ | _ | _ <;> rw [hx] at he <;>
        rcases List.mem_singleton.mp he with rfl <;>
        simp [evTouchesPrint, hne']

/-- The one-step unfolding of the `printTasks` loop on a nonempty suffix. -/
theorem printTasksAux_cons (dev : FormattedTask → DeviceOutcome) (delayMs : Nat)
    (tasks : List FormattedTask) (t : FormattedTask) (rest : List FormattedTask)
    (st : PrinterState) :
    printTasksAux dev delayMs tasks (t :: rest) st
      = ((printTasksAux dev delayMs tasks rest (printTask dev st t).1).1,
         (printTasksAux dev delayMs tasks rest (printTask dev st t).1).2.1
           + (if (printTask dev st t).2.1 = PrintResult.printed then 1 else 0),
         (printTask dev st t).2.2
           ++ (if (printTask dev st t).2.1 = PrintResult.printed
                  ∧ idxOf tasks t < tasks.length - 1
               then Ev.sleep delayMs
                 :: (printTasksAux dev delayMs tasks rest (printTask dev st t).1).2.2
               else (printTasksAux dev delayMs tasks rest (printTask dev st t).1).2.2)) := by
  cases hr : (printTask dev st t).2.1 with
  | printed =>
    by_cases hi : idxOf tasks t < tasks.length - 1
    · simp only [printTasksAux, hr, hi, if_true, and_self, if_pos]
    · simp only [printTasksAux, hr, hi, and_false, if_false]
      simp [hi]
  | skipped => simp only [printTasksAux, hr]; simp
  | failed => simp only [printTasksAux, hr]; simp

theorem printTasksAux_count (dev : FormattedTask → DeviceOutcome) (delayMs : Nat)
    (tasks : List FormattedTask) :
    ∀ (rem : List FormattedTask) (st : PrinterState),
      (printTasksAux dev delayMs tasks rem st).2.1
        = (((printTasksAux dev delayMs tasks rem st).2.2).filter isPrintEv).length := by
  intro rem
  induction rem with
  | nil => intro st; simp [printTasksAux]
  | cons t rest ih =>
    intro st
    rw [printTasksAux_cons]
    obtain ⟨e, he, hs, hp⟩ := printTask_shape dev st t
    rw [he]
    by_cases hr : (printTask dev st t).2.1 = PrintResult.printed
    · have hpe : isPrintEv e = true := hp.mpr hr
      have hsl : isPrintEv (Ev.sleep delayMs) = false := rfl
      by_cases hi : idxOf tasks t < tasks.length - 1
      · simp [hr, hi, hpe, hsl, List.filter_cons, ih, Nat.add_comm]
      · simp [hr, hi, hpe, List.filter_cons, ih, Nat.add_comm]
    · have hpe : isPrintEv e = false := by
        cases hx : isPrintEv e
        · rfl
        · exact absurd (hp.mp hx) hr
      have hcond : ¬((printTask dev st t).2.1 = PrintResult.printed
          ∧ idxOf tasks t < tasks.length - 1) := fun hx => hr hx.1
      simp [hr, hcond, hpe, List.filter_cons, ih]

theorem printTasksAux_no_touch (dev : FormattedTask → DeviceOutcome) (delayMs : Nat)
    (tasks : List FormattedTask) (id : String) :
    ∀ (rem : List FormattedTask) (st : PrinterState), id ∈ st.printedTasks →
      ∀ e ∈ (printTasksAux dev delayMs tasks rem st).2.2, evTouchesPrint id e = false := by
  intro rem
  induction rem with
  | nil => intro st _ e he; simp [printTasksAux] at he
  | cons t rest ih =>
    intro st h e he
    rw [printTasksAux_cons] at he
    rcases List.mem_append.mp he with h1 | h2
    · exact printTask_no_touch dev st t id h e h1
    · have hmono := printTask_mono dev st t id h
      by_cases hcond : (printTask dev st t).2.1 = PrintResult.printed
          ∧ idxOf tasks t < tasks.length - 1
      · rw [if_pos hcond] at h2
        rcases List.mem_cons.mp h2 with rfl | h3
        · rfl
        · exact ih _ hmono e h3
      · rw [if_neg hcond] at h2
        exact ih _ hmono e h2

theorem printTasksAux_skip_event (dev : FormattedTask → DeviceOutcome) (delayMs : Nat)
    (tasks : List FormattedTask) (id : String) :
    ∀ (rem : List FormattedTask) (st : PrinterState), id ∈ st.printedTasks →
      ∀ t ∈ rem, t.id = id →
        Ev.skip id ∈ (printTasksAux dev delayMs tasks rem st).2.2 := by
  intro rem
  induction rem with
  | nil => intro st _ t ht; cases ht
  | cons t0 rest ih =>
    intro st h t ht hid
    rw [printTasksAux_cons]
    rcases List.mem_cons.mp ht with rfl | ht'
    · have hc : isAlreadyPrinted st t.id = true := contains_of_mem _ _ (hid ▸ h)
      apply List.mem_append.mpr
      left
      simp only [printTask, hc, if_true]
      simp [hid]
    · apply List.mem_append.mpr
      right
      have hmono := printTask_mono dev st t0 id h
      have hrec := ih _ hmono t ht' hid
      split
      · exact List.mem_cons_of_mem _ hrec
      · exact hrec

/-! ## C1: dedup cache suppresses reprints -/

/-- C1: for every dispatch and every id already in the dedup cache, no print
interaction (simulated, physical, or attempted) ever happens for that id —
every task bearing it is skipped — and the returned count equals the number
of print renderings in the trace, none of which is for that id. -/
theorem claim1_dedup_skip (dev : FormattedTask → DeviceOutcome) (st : PrinterState)
    (tasks : List FormattedTask) (delayMs : Nat) (id : String)
    (h : id ∈ st.printedTasks) :
    (∀ e ∈ (printTasks dev st tasks delayMs).2.2, evTouchesPrint id e = false) ∧
    (∀ t ∈ tasks, t.id = id → Ev.skip id ∈ (printTasks dev st tasks delayMs).2.2) ∧
    (printTasks dev st tasks delayMs).2.1
      = (((printTasks dev st tasks delayMs).2.2).filter isPrintEv).length :=
  ⟨printTasksAux_no_touch dev delayMs tasks id tasks st h,
   fun t ht hid => printTasksAux_skip_event dev delayMs tasks id tasks st h t ht hid,
   printTasksAux_count dev delayMs tasks tasks st⟩

/-- Witness for C1 at a concrete cached id and two-task batch. -/
theorem claim1_witness :
    evTouchesPrint "T1" (Ev.realPrint "T2") = false ∧
    Ev.skip "T1"
      ∈ (printTasks devAlwaysOK ⟨false, ["T1"], some ["T1"]⟩ [sampleA, sampleB] 5).2.2 ∧
    (printTasks devAlwaysOK ⟨false, ["T1"], some ["T1"]⟩ [sampleA, sampleB] 5).2.1
      = (((printTasks devAlwaysOK ⟨false, ["T1"], some ["T1"]⟩
            [sampleA, sampleB] 5).2.2).filter isPrintEv).length := by
  have h := claim1_dedup_skip devAlwaysOK ⟨false, ["T1"], some ["T1"]⟩
    [sampleA, sampleB] 5 "T1" (by decide)
  exact ⟨h.1 (Ev.realPrint "T2") (by decide), h.2.1 sampleA (by decide) rfl, h.2.2⟩

/-! ## C10: dry-run count -/

theorem printTasksAux_dry (dev : FormattedTask → DeviceOutcome) (delayMs : Nat)
    (tasks : List FormattedTask) :
    ∀ (rem : List FormattedTask) (st : PrinterState), st.dryRun = true →
      (printTasksAux dev delayMs tasks rem st).1 = st ∧
      (printTasksAux dev delayMs tasks rem st).2.1
        = (rem.filter fun t => !(st.printedTasks.contains t.id)).length ∧
      ∀ e ∈ (printTasksAux dev delayMs tasks rem st).2.2, isRealPrintEv e = false := by
  intro rem
  induction rem with
  | nil =>
    intro st _
    refine ⟨rfl, rfl, ?_⟩
    intro e he
    simp [printTasksAux] at he
  | cons t rest ih =>
    intro st h
    by_cases hm : t.id ∈ st.printedTasks
    · have hstep : printTask dev st t = (st, PrintResult.skipped, [Ev.skip t.id]) := by
        simp only [printTask, isAlreadyPrinted, contains_of_mem _ _ hm]
        simp
      obtain ⟨ih1, ih2, ih3⟩ := ih st h
      rw [printTasksAux_cons, hstep]
      refine ⟨ih1, ?_, ?_⟩
      · simp [List.filter_cons, hm, ih2]
      · intro e he
        simp only [List.mem_append] at he
        rcases he with h1 | h2
        · rcases List.mem_singleton.mp h1 with rfl
          rfl
        · split at h2
          · rcases List.mem_cons.mp h2 with rfl | h3
            · rfl
            · exact ih3 e h3
          · exact ih3 e h2
    · have hstep : printTask dev st t = (st, PrintResult.printed, [Ev.dryPrint t.id]) := by
        simp [printTask, isAlreadyPrinted, hm, h]
      obtain ⟨ih1, ih2, ih3⟩ := ih st h
      rw [printTasksAux_cons, hstep]
      refine ⟨ih1, ?_, ?_⟩
      · simp [List.filter_cons, hm, ih2, Nat.add_comm]
      · intro e he
        simp only [List.mem_append] at he
        rcases he with h1 | h2
        · rcases List.mem_singleton.mp h1 with rfl
          rfl
        · split at h2
          · rcases List.mem_cons.mp h2 with rfl | h3
            · rfl
            · exact ih3 e h3
          · exact ih3 e h2

/-- C10: in dry-run mode dispatch leaves the state unchanged, returns the
number of input tasks whose id is not already in the dedup cache (each of
them is simulated and counted), and no physical print side effect occurs. -/
theorem claim10_dry_count (dev : FormattedTask → DeviceOutcome) (st : PrinterState)
    (tasks : List FormattedTask) (delayMs : Nat) (h : st.dryRun = true) :
    (printTasks dev st tasks delayMs).1 = st ∧
    (printTasks dev st tasks delayMs).2.1
      = (tasks.filter fun t => !(st.printedTasks.contains t.id)).length ∧
    ∀ e ∈ (printTasks dev st tasks delayMs).2.2, isRealPrintEv e = false :=
  printTasksAux_dry dev delayMs tasks tasks st h

/-- Witness for C10 at a concrete dry-run dispatch of two fresh tasks. -/
theorem claim10_witness :
    (printTasks devAlwaysOK ⟨true, [], none⟩ [sampleA, sampleB] 5).1 = ⟨true, [], none⟩ ∧
    (printTasks devAlwaysOK ⟨true, [], none⟩ [sampleA, sampleB] 5).2.1
      = (([sampleA, sampleB].filter
            fun t => !(([] : List String).contains t.id)).length) ∧
    isRealPrintEv (Ev.dryPrint "T1") = false := by
  have h := claim10_dry_count devAlwaysOK ⟨true, [], none⟩ [sampleA, sampleB] 5 rfl
  exact ⟨h.1, h.2.1, h.2.2 (Ev.dryPrint "T1") (by decide)⟩

/-! ## C4: dry-run never suppresses a later real print -/

/-- C4: dispatching a fresh task in dry-run mode leaves the cache untouched
(`markPrinted` is not called) and performs no physical print; dispatching the
same task afterwards in real mode performs exactly one physical print. -/
theorem claim4_dryrun_nonsuppression (dev : FormattedTask → DeviceOutcome)
    (st : PrinterState) (t : FormattedTask) (delayMs : Nat)
    (hdry : st.dryRun = true)
    (hnew : st.printedTasks.contains t.id = false)
    (hdev : dev t = DeviceOutcome.success) :
    (printTasks dev st [t] delayMs).1 = st ∧
    (((printTasks dev st [t] delayMs).2.2).filter isRealPrintEv).length = 0 ∧
    (printTasks dev { st with dryRun := false } [t] delayMs).2.2
      = [Ev.realPrint t.id] ∧
    (printTasks dev { st with dryRun := false } [t] delayMs).2.1 = 1 := by
  have hm := not_mem_of_contains_eq_false _ _ hnew
  have h1 : printTask dev st t = (st, PrintResult.printed, [Ev.dryPrint t.id]) := by
    simp [printTask, isAlreadyPrinted, hm, hdry]
  have h2 : printTask dev { st with dryRun := false } t
      = (markPrinted { st with dryRun := false } t.id, PrintResult.printed,
         [Ev.realPrint t.id]) := by
    simp [printTask, isAlreadyPrinted, hm, hdev]
  refine ⟨?_, ?_, ?_, ?_⟩ <;>
    simp [printTasks, printTasksAux, h1, h2, idxOf, isRealPrintEv]

/-- Witness for C4 at a concrete task, dry then real. -/
theorem claim4_witness :
    (printTasks devAlwaysOK ⟨true, [], none⟩ [sampleA] 5).1 = ⟨true, [], none⟩ ∧
    (((printTasks devAlwaysOK ⟨true, [], none⟩ [sampleA] 5).2.2).filter
        isRealPrintEv).length = 0 ∧
    (printTasks devAlwaysOK ⟨false, [], none⟩ [sampleA] 5).2.2
      = [Ev.realPrint "T1"] ∧
    (printTasks devAlwaysOK ⟨false, [], none⟩ [sampleA] 5).2.1 = 1 :=
  claim4_dryrun_nonsuppression devAlwaysOK ⟨true, [], none⟩ sampleA 5 rfl rfl rfl

/-! ## C5: per-task failure isolation -/

/-- C5: when the device fails for a fresh task in real mode, the loop logs
the failure, leaves the state unchanged (the id is not marked printed), adds
nothing to the count, and continues with the remaining tasks of the batch
exactly as if the failing task had not been there. -/
theorem claim5_failure_isolated (dev : FormattedTask → DeviceOutcome) (delayMs : Nat)
    (tasks rest : List FormattedTask) (t : FormattedTask) (st : PrinterState)
    (hreal : st.dryRun = false)
    (hnew : st.printedTasks.contains t.id = false)
    (hfail : dev t ≠ DeviceOutcome.success) :
    printTasksAux dev delayMs tasks (t :: rest) st
      = ((printTasksAux dev delayMs tasks rest st).1,
         (printTasksAux dev delayMs tasks rest st).2.1,
         Ev.printFail t.id :: (printTasksAux dev delayMs tasks rest st).2.2) := by
  have hm := not_mem_of_contains_eq_false _ _ hnew
  have h1 : printTask dev st t = (st, PrintResult.failed, [Ev.printFail t.id]) := by
    cases hd : dev t with
    | success => exact absurd hd hfail
    | openError => simp [printTask, isAlreadyPrinted, hm, hreal, hd]
    | writeError => simp [printTask, isAlreadyPrinted, hm, hreal, hd]
  rw [printTasksAux_cons, h1]
  simp

/-- Witness for C5: a failing first task of a two-task batch. -/
theorem claim5_witness :
    printTasksAux devAlwaysFails 5 [sampleA, sampleB] [sampleA, sampleB]
        ⟨false, [], none⟩
      = ((printTasksAux devAlwaysFails 5 [sampleA, sampleB] [sampleB]
            ⟨false, [], none⟩).1,
         (printTasksAux devAlwaysFails 5 [sampleA, sampleB] [sampleB]
            ⟨false, [], none⟩).2.1,
         Ev.printFail "T1"
           :: (printTasksAux devAlwaysFails 5 [sampleA, sampleB] [sampleB]
                ⟨false, [], none⟩).2.2) :=
  claim5_failure_isolated devAlwaysFails 5 [sampleA, sampleB] [sampleB] sampleA
    ⟨false, [], none⟩ rfl rfl (by decide)

/-- Witness for C2 (amended) at a concrete keyword list and task. -/
theorem claim2_witness :
    (["doing"] : List String) ≠ [] ∧
    (filterSprintTasks ["doing"] [backlogTask]
       = List.filter (fun t => specSprintQualifies ["doing"] t) [backlogTask] ∧
     (filterSprintTasks ["doing"] [backlogTask]).Sublist [backlogTask]) :=
  ⟨by decide, claim2_filter_matches_spec ["doing"] [backlogTask] (by decide)⟩

/-! ## C6: which operations can remove cached identifiers -/

theorem mem_setDelete_of_mem_ne (l : List String) (id x : String)
    (h : x ∈ l) (hne : x ≠ id) : x ∈ setDelete l id := by
  unfold setDelete
  exact List.mem_filter.mpr ⟨h, by simp [hne]⟩

theorem printTasksAux_mono (dev : FormattedTask → DeviceOutcome) (delayMs : Nat)
    (tasks : List FormattedTask) (x : String) :
    ∀ (rem : List FormattedTask) (st : PrinterState), x ∈ st.printedTasks →
      x ∈ (printTasksAux dev delayMs tasks rem st).1.printedTasks := by
  intro rem
  induction rem with
  | nil => intro st h; exact h
  | cons t rest ih =>
    intro st h
    rw [printTasksAux_cons]
    by_cases hcond : (printTask dev st t).2.1 = PrintResult.printed
        ∧ idxOf tasks t < tasks.length - 1
    · exact ih _ (printTask_mono dev st t x h)
    · exact ih _ (printTask_mono dev st t x h)

theorem printTask_storage_mono (dev : FormattedTask → DeviceOutcome)
    (st : PrinterState) (t : FormattedTask) (x : String)
    (hinv : storageInv st) (h : x ∈ storageL st) :
    x ∈ storageL (printTask dev st t).1 := by
  unfold printTask
  split
  · exact h
  · split
    · exact h
    · split
      · show x ∈ storageL (markPrinted st t.id)
        show x ∈ setAdd st.printedTasks t.id
        exact mem_setAdd_of_mem _ _ _ (hinv x h)
      · exact h
      · exact h

theorem printTask_storageInv (dev : FormattedTask → DeviceOutcome)
    (st : PrinterState) (t : FormattedTask) (hinv : storageInv st) :
    storageInv (printTask dev st t).1 := by
  unfold printTask
  split
  · exact hinv
  · split
    · exact hinv
    · split
      · intro y hy
        exact hy
      · exact hinv
      · exact hinv

theorem printTasksAux_storage_mono (dev : FormattedTask → DeviceOutcome)
    (delayMs : Nat) (tasks : List FormattedTask) (x : String) :
    ∀ (rem : List FormattedTask) (st : PrinterState), storageInv st →
      x ∈ storageL st →
      x ∈ storageL (printTasksAux dev delayMs tasks rem st).1 := by
  intro rem
  induction rem with
  | nil => intro st _ h; exact h
  | cons t rest ih =>
    intro st hinv h
    rw [printTasksAux_cons]
    by_cases hcond : (printTask dev st t).2.1 = PrintResult.printed
        ∧ idxOf tasks t < tasks.length - 1
    · exact ih _ (printTask_storageInv dev st t hinv)
        (printTask_storage_mono dev st t x hinv h)
    · exact ih _ (printTask_storageInv dev st t hinv)
        (printTask_storage_mono dev st t x hinv h)

theorem printTest_storage_mono (dev : FormattedTask → DeviceOutcome)
    (st : PrinterState) (x : String) (hinv : storageInv st) (h : x ∈ storageL st) :
    x ∈ storageL (printTest dev st).1 := by
  unfold printTest printTask
  split
  · exact h
  · split
    · exact h
    · split
      · show x ∈ setAdd (setDelete st.printedTasks testTask.id) testTask.id
        by_cases hx : x = testTask.id
        · exact hx ▸ mem_setAdd_self _ _
        · exact mem_setAdd_of_mem _ _ _
            (mem_setDelete_of_mem_ne _ _ _ (hinv x h) hx)
      · exact h
      · exact h

/-- C6 counterexample: `printTest` in dry-run mode removes the test id
`"T00000"` from the in-memory dedup set although `clearCache` was never
invoked — so clear-cache is not the only operation that removes
identifiers. -/
theorem claim6_cex :
    "T00000" ∈ (PrinterState.mk true ["T00000"] (some ["T00000"])).printedTasks ∧
    ((printTest devAlwaysOK ⟨true, ["T00000"], some ["T00000"]⟩).1).printedTasks = [] ∧
    "T00000" ∉ ((printTest devAlwaysOK ⟨true, ["T00000"], some ["T00000"]⟩).1).printedTasks := by
  exact ⟨by decide, by decide, by decide⟩

/-- C6 (amended): `loadPrintedTasks`, `markPrinted`, `printTask` and
`printTasks` never remove an identifier from the in-memory set, nor (in
storage-consistent states) from persisted storage; `clearCache` empties both;
`printTest` also never shrinks persisted storage but may remove exactly the
fixed test identifier `"T00000"` from the in-memory set (it deletes it to
bypass dedup for the synthetic ticket), preserving every other identifier. -/
theorem claim6_removals (dev : FormattedTask → DeviceOutcome) (st : PrinterState)
    (t : FormattedTask) (tasks : List FormattedTask) (delayMs : Nat) (id x : String) :
    (x ∈ st.printedTasks → x ∈ (markPrinted st id).printedTasks) ∧
    (x ∈ st.printedTasks → x ∈ (printTask dev st t).1.printedTasks) ∧
    (x ∈ st.printedTasks → x ∈ (printTasks dev st tasks delayMs).1.printedTasks) ∧
    (storageInv st → x ∈ storageL st → x ∈ storageL (markPrinted st id)) ∧
    (storageInv st → x ∈ storageL st → x ∈ storageL (printTask dev st t).1) ∧
    (storageInv st → x ∈ storageL st →
      x ∈ storageL (printTasks dev st tasks delayMs).1) ∧
    (storageInv st → x ∈ storageL st → x ∈ storageL (printTest dev st).1) ∧
    (x ≠ testTask.id → x ∈ st.printedTasks → x ∈ (printTest dev st).1.printedTasks) ∧
    (clearCache st).printedTasks = [] ∧ (clearCache st).storage = some [] := by
  refine ⟨?_, ?_, ?_, ?_, ?_, ?_, ?_, ?_, rfl, rfl⟩
  · exact fun h => mem_setAdd_of_mem _ _ _ h
  · exact fun h => printTask_mono dev st t x h
  · exact fun h => printTasksAux_mono dev delayMs tasks x tasks st h
  · exact fun hinv h => mem_setAdd_of_mem _ _ _ (hinv x h)
  · exact fun hinv h => printTask_storage_mono dev st t x hinv h
  · exact fun hinv h => printTasksAux_storage_mono dev delayMs tasks x tasks st hinv h
  · exact fun hinv h => printTest_storage_mono dev st x hinv h
  · intro hne h
    exact printTask_mono dev _ testTask x (mem_setDelete_of_mem_ne _ _ _ h hne)

/-- Witness for C6 (amended) at a concrete state and id. -/
theorem claim6_witness :
    "A" ∈ (markPrinted ⟨false, ["A"], some ["A"]⟩ "B").printedTasks ∧
    "A" ∈ (printTask devAlwaysOK ⟨false, ["A"], some ["A"]⟩ sampleA).1.printedTasks ∧
    "A" ∈ (printTasks devAlwaysOK ⟨false, ["A"], some ["A"]⟩ [sampleA] 5).1.printedTasks ∧
    "A" ∈ storageL (markPrinted ⟨false, ["A"], some ["A"]⟩ "B") ∧
    "A" ∈ storageL (printTask devAlwaysOK ⟨false, ["A"], some ["A"]⟩ sampleA).1 ∧
    "A" ∈ storageL (printTasks devAlwaysOK ⟨false, ["A"], some ["A"]⟩ [sampleA] 5).1 ∧
    "A" ∈ storageL (printTest devAlwaysOK ⟨false, ["A"], some ["A"]⟩).1 ∧
    "A" ∈ (printTest devAlwaysOK ⟨false, ["A"], some ["A"]⟩).1.printedTasks ∧
    (clearCache ⟨false, ["A"], some ["A"]⟩).printedTasks = [] ∧
    (clearCache ⟨false, ["A"], some ["A"]⟩).storage = some [] := by
  have h := claim6_removals devAlwaysOK ⟨false, ["A"], some ["A"]⟩ sampleA [sampleA] 5 "B" "A"
  have hinv : storageInv ⟨false, ["A"], some ["A"]⟩ := fun y hy => hy
  have hmem : "A" ∈ (PrinterState.mk false ["A"] (some ["A"])).printedTasks := by decide
  have hsto : "A" ∈ storageL ⟨false, ["A"], some ["A"]⟩ := by decide
  exact ⟨h.1 hmem, h.2.1 hmem, h.2.2.1 hmem, h.2.2.2.1 hinv hsto,
    h.2.2.2.2.1 hinv hsto, h.2.2.2.2.2.1 hinv hsto, h.2.2.2.2.2.2.1 hinv hsto,
    h.2.2.2.2.2.2.2.1 (by decide) hmem, h.2.2.2.2.2.2.2.2.1, h.2.2.2.2.2.2.2.2.2⟩

/-! ## C7: placement of the inter-print delay -/

theorem sleepsAfterPrintsFrom_of_follows (prev : Ev) (l : List Ev)
    (h : sleepsFollowPrints l = true) : sleepsAfterPrintsFrom prev l = true := by
  cases l with
  | nil => rfl
  | cons e rest =>
    simp only [sleepsFollowPrints, Bool.and_eq_true, Bool.not_eq_true'] at h
    simp only [sleepsAfterPrintsFrom, Bool.and_eq_true]
    exact ⟨by simp [h.1], h.2⟩

theorem printTasksAux_sleeps_follow (dev : FormattedTask → DeviceOutcome)
    (delayMs : Nat) (tasks : List FormattedTask) :
    ∀ (rem : List FormattedTask) (st : PrinterState),
      sleepsFollowPrints (printTasksAux dev delayMs tasks rem st).2.2 = true := by
  intro rem
  induction rem with
  | nil => intro st; rfl
  | cons t rest ih =>
    intro st
    rw [printTasksAux_cons]
    obtain ⟨e, he, hs, hp⟩ := printTask_shape dev st t
    rw [he]
    by_cases hcond : (printTask dev st t).2.1 = PrintResult.printed
        ∧ idxOf tasks t < tasks.length - 1
    · rw [if_pos hcond]
      have hpe : isPrintEv e = true := hp.mpr hcond.1
      show sleepsFollowPrints (e :: Ev.sleep delayMs
        :: (printTasksAux dev delayMs tasks rest (printTask dev st t).1).2.2) = true
      simp only [sleepsFollowPrints, sleepsAfterPrintsFrom, Bool.and_eq_true]
      refine ⟨by simp [hs], ?_, ?_⟩
      · simp [isSleepEv, hpe]
      · exact sleepsAfterPrintsFrom_of_follows _ _ (ih _)
    · rw [if_neg hcond]
      show sleepsFollowPrints (e
        :: (printTasksAux dev delayMs tasks rest (printTask dev st t).1).2.2) = true
      simp only [sleepsFollowPrints, Bool.and_eq_true]
      exact ⟨by simp [hs], sleepsAfterPrintsFrom_of_follows _ _ (ih _)⟩

theorem idxOf_append_singleton (init : List FormattedTask) (t : FormattedTask)
    (h : t ∉ init) : idxOf (init ++ [t]) t = init.length := by
  induction init with
  | nil => simp [idxOf]
  | cons a as ih =>
    have hne : a ≠ t := fun hx => h (hx ▸ List.mem_cons_self a as)
    simp only [List.cons_append, idxOf, if_neg hne, List.length_cons]
    exact congrArg (fun n => n + 1) (ih fun hx => h (List.mem_cons_of_mem a hx))

theorem printTasksAux_trace_ne_nil (dev : FormattedTask → DeviceOutcome)
    (delayMs : Nat) (tasks : List FormattedTask) (t : FormattedTask)
    (rest : List FormattedTask) (st : PrinterState) :
    (printTasksAux dev delayMs tasks (t :: rest) st).2.2 ≠ [] := by
  rw [printTasksAux_cons]
  obtain ⟨e, he, _, _⟩ := printTask_shape dev st t
  rw [he]
  simp

theorem printTasksAux_last_no_sleep (dev : FormattedTask → DeviceOutcome)
    (delayMs : Nat) (tasks : List FormattedTask) (hnd : tasks.Nodup) :
    ∀ (rem : List FormattedTask) (st : PrinterState), rem <:+ tasks →
      ∀ d : Nat,
        (printTasksAux dev delayMs tasks rem st).2.2.getLast? ≠ some (Ev.sleep d) := by
  intro rem
  induction rem with
  | nil => intro st _ d; simp [printTasksAux]
  | cons t rest ih =>
    intro st hsuf d
    have hsuf' : rest <:+ tasks := (List.suffix_cons t rest).trans hsuf
    rw [printTasksAux_cons]
    obtain ⟨e, he, hs, hp⟩ := printTask_shape dev st t
    rw [he]
    by_cases hcond : (printTask dev st t).2.1 = PrintResult.printed
        ∧ idxOf tasks t < tasks.length - 1
    · rw [if_pos hcond]
      cases hrest : rest with
      | nil =>
        exfalso
        rw [hrest] at hsuf
        obtain ⟨init, hinit⟩ := hsuf
        have hnd' : (init ++ [t]).Nodup := hinit ▸ hnd
        have hnotmem : t ∉ init := by
          rcases List.nodup_append.mp hnd' with ⟨-, -, hdisj⟩
          exact fun hx => hdisj hx (List.mem_singleton_self t)
        have hidx : idxOf tasks t = tasks.length - 1 := by
          rw [← hinit, idxOf_append_singleton init t hnotmem]
          simp
        rw [hidx] at hcond
        exact absurd hcond.2 (lt_irrefl _)
      | cons r rs =>
        rw [hrest] at ih hsuf'
        have hne : (printTasksAux dev delayMs tasks (r :: rs)
            (printTask dev st t).1).2.2 ≠ [] :=
          printTasksAux_trace_ne_nil dev delayMs tasks r rs _
        rw [List.getLast?_append_of_ne_nil _ (List.cons_ne_nil _ _)]
        rw [show (Ev.sleep delayMs
            :: (printTasksAux dev delayMs tasks (r :: rs) (printTask dev st t).1).2.2)
            = [Ev.sleep delayMs]
              ++ (printTasksAux dev delayMs tasks (r :: rs) (printTask dev st t).1).2.2
          from rfl]
        rw [List.getLast?_append_of_ne_nil _ hne]
        exact ih _ hsuf' d
    · rw [if_neg hcond]
      cases hrest : rest with
      | nil =>
        have hnil : (printTasksAux dev delayMs tasks ([] : List FormattedTask)
            (printTask dev st t).1).2.2 = [] := rfl
        rw [hnil, List.append_nil]
        intro hx
        rw [List.getLast?_singleton] at hx
        cases hx
        exact absurd hs (by simp [isSleepEv])
      | cons r rs =>
        rw [hrest] at ih hsuf'
        have hne : (printTasksAux dev delayMs tasks (r :: rs)
            (printTask dev st t).1).2.2 ≠ [] :=
          printTasksAux_trace_ne_nil dev delayMs tasks r rs _
        rw [List.getLast?_append_of_ne_nil _ hne]
        exact ih _ hsuf' d

theorem printTasksAux_sleep_after_print (dev : FormattedTask → DeviceOutcome)
    (delayMs : Nat) (tasks : List FormattedTask) (t : FormattedTask)
    (rest : List FormattedTask) (st : PrinterState)
    (hpr : (printTask dev st t).2.1 = PrintResult.printed)
    (hidx : idxOf tasks t < tasks.length - 1) :
    (printTasksAux dev delayMs tasks (t :: rest) st).2.2
      = (printTask dev st t).2.2
          ++ Ev.sleep delayMs
             :: (printTasksAux dev delayMs tasks rest (printTask dev st t).1).2.2 := by
  simp [printTasksAux_cons, hpr, hidx]

/-- C7 counterexample: the first task of the batch is already in the dedup
cache, so it is skipped and — although another task follows it — no
`sleep(delayMs)` wait happens before the second task is processed. -/
theorem claim7_cex :
    (printTasks devAlwaysOK ⟨false, ["T1"], some ["T1"]⟩ [sampleA, sampleB] 5).2.2
      = [Ev.skip "T1", Ev.realPrint "T2"] ∧
    (((printTasks devAlwaysOK ⟨false, ["T1"], some ["T1"]⟩
        [sampleA, sampleB] 5).2.2).filter isSleepEv).length = 0 := by
  exact ⟨by decide, by decide⟩

/-- C7 (amended): during dispatch the `delayMs` wait occurs only immediately
after a task whose print attempt succeeded (never after a skipped or failed
task); for a duplicate-free task sequence no wait occurs after the last
task; and after a successfully printed task whose (first-occurrence) index is
not the last position, the wait does occur before the rest of the batch. -/
theorem claim7_delay_placement (dev : FormattedTask → DeviceOutcome)
    (st : PrinterState) (tasks : List FormattedTask) (delayMs : Nat) :
    sleepsFollowPrints (printTasks dev st tasks delayMs).2.2 = true ∧
    (tasks.Nodup →
      ∀ d : Nat,
        (printTasks dev st tasks delayMs).2.2.getLast? ≠ some (Ev.sleep d)) ∧
    (∀ (t : FormattedTask) (rest : List FormattedTask) (st' : PrinterState),
      (printTask dev st' t).2.1 = PrintResult.printed →
      idxOf tasks t < tasks.length - 1 →
      (printTasksAux dev delayMs tasks (t :: rest) st').2.2
        = (printTask dev st' t).2.2
            ++ Ev.sleep delayMs
               :: (printTasksAux dev delayMs tasks rest (printTask dev st' t).1).2.2) :=
  ⟨printTasksAux_sleeps_follow dev delayMs tasks tasks st,
   fun hnd d =>
     printTasksAux_last_no_sleep dev delayMs tasks hnd tasks st (List.suffix_refl tasks) d,
   fun t rest st' hpr hidx =>
     printTasksAux_sleep_after_print dev delayMs tasks t rest st' hpr hidx⟩

/-- Witness for C7 (amended) at a concrete duplicate-free two-task batch. -/
theorem claim7_witness :
    sleepsFollowPrints
        (printTasks devAlwaysOK ⟨false, [], none⟩ [sampleA, sampleB] 5).2.2 = true ∧
    (printTasks devAlwaysOK ⟨false, [], none⟩ [sampleA, sampleB] 5).2.2.getLast?
      ≠ some (Ev.sleep 5) ∧
    (printTasksAux devAlwaysOK 5 [sampleA, sampleB] [sampleA, sampleB]
        ⟨false, [], none⟩).2.2
      = (printTask devAlwaysOK ⟨false, [], none⟩ sampleA).2.2
          ++ Ev.sleep 5
             :: (printTasksAux devAlwaysOK 5 [sampleA, sampleB] [sampleB]
                  (printTask devAlwaysOK ⟨false, [], none⟩ sampleA).1).2.2 := by
  have h := claim7_delay_placement devAlwaysOK ⟨false, [], none⟩ [sampleA, sampleB] 5
  exact ⟨h.1, h.2.1 (by decide) 5,
    h.2.2 sampleA [sampleB] ⟨false, [], none⟩ (by decide) (by decide)⟩

end PhabPrint
